import Mathlib

/-!
Shallow embedding of `scripts/extract_figures.py`, the figure/table
region-extraction engine: caption detection, boundary resolution, the
three-pass visual trimmer and the extraction orchestrator, together with
proofs of the specified properties.

Geometry is modelled over `ℚ` (PDF user-space coordinates, `y` growing
downwards).  The PDF and image collaborators (PyMuPDF, OpenCV) are opaque
boundaries: a page's `render` field stands for
`page.get_pixmap(matrix, clip)` followed by grayscale conversion,
producing an intensity matrix; writing files is modelled by recording the
`(path, image)` pairs the run emits.
-/

namespace ExtractFigures

/-- A PDF rectangle `(x0, y0, x1, y1)`; `y` grows downwards. -/
structure Rect where
  x0 : ℚ
  y0 : ℚ
  x1 : ℚ
  y1 : ℚ
deriving DecidableEq, Repr, Inhabited

/-- `fitz.Rect.width` of the clip rectangles the script builds.  An inverted
or empty rectangle is never renderable to a usable pixmap, so the signed
difference is the size the `< 20` guards act on. -/
def Rect.width (r : Rect) : ℚ := r.x1 - r.x0

/-- `fitz.Rect.height`, as the signed difference `y1 - y0`. -/
def Rect.height (r : Rect) : ℚ := r.y1 - r.y0

/-- ASCII whitespace: the characters matched by the source regexes' `\s`
and stripped by Python's `str.strip()` (ASCII range). -/
def isSpaceChar (c : Char) : Bool :=
  c = ' ' || c = '\t' || c = '\n' || c = '\r' || c = Char.ofNat 11 || c = Char.ofNat 12

/-- Python `str.strip()` (ASCII whitespace range). -/
def pyStrip (s : List Char) : List Char :=
  ((s.dropWhile isSpaceChar).reverse.dropWhile isSpaceChar).reverse

/-- Case-insensitive literal match: the pattern is given in lowercase;
returns the input remaining after the literal, or `none`. -/
def dropLitCI : List Char → List Char → Option (List Char)
  | [], s => some s
  | _ :: _, [] => none
  | p :: ps, c :: cs => if c.toLower = p then dropLitCI ps cs else none

/-- Does `needle` occur contiguously in `hay` (Python's `in` on strings)? -/
def containsSub (needle : List Char) : List Char → Bool
  | [] => needle.isEmpty
  | c :: cs => (dropLitCI needle (c :: cs)).isSome || containsSub needle cs

/-- Tail of `CAPTION_RE_MAIN` after the kind literal: `\s+(\d+)[\.\s]`.
Returns `(group1.lower(), group2)`. -/
def mainTail (kind : String) (r1 : List Char) : Option (String × String) :=
  let sp := r1.span isSpaceChar
  if sp.1.isEmpty then none
  else
    let dg := sp.2.span Char.isDigit
    if dg.1.isEmpty then none
    else
      match dg.2 with
      | [] => none
      | c :: _ => if c = '.' || isSpaceChar c then some (kind, String.mk dg.1) else none

/-- `CAPTION_RE_MAIN = ^(Figure|Table)\s+(\d+)[\.\s]` with `re.IGNORECASE`,
as an anchored matcher returning `(group1.lower(), group2)`.  The pattern
is matched for the lowercase pattern literals; `\d` is modelled on the
ASCII digit range. -/
def matchCaptionMain (s : List Char) : Option (String × String) :=
  ((dropLitCI "figure".data s).bind (mainTail "figure")) <|>
    ((dropLitCI "table".data s).bind (mainTail "table"))

/-- The suffix `(?:\.|\s+[^(\s])` of `CAPTION_RE_SI`: a period, or
whitespace followed by a character that is neither `(` nor whitespace. -/
def siSuffixOk (r3 : List Char) : Bool :=
  match r3 with
  | '.' :: _ => true
  | _ =>
    let sp := r3.span isSpaceChar
    if sp.1.isEmpty then false
    else
      match sp.2 with
      | h :: _ => !(h = '(') && !(isSpaceChar h)
      | [] => false

/-- `(S?\d+)(?:\.|\s+[^(\s])`: the number group of `CAPTION_RE_SI`, with the
optional `S` prefix tried greedily first (regex backtracking order). -/
def siNumTail (r2 : List Char) : Option String :=
  let withS : Option String :=
    match r2 with
    | c :: cr =>
      if c.toLower = 's' then
        let dg := cr.span Char.isDigit
        if dg.1.isEmpty then none
        else if siSuffixOk dg.2 then some (String.mk (c :: dg.1)) else none
      else none
    | [] => none
  let noS : Option String :=
    let dg := r2.span Char.isDigit
    if dg.1.isEmpty then none
    else if siSuffixOk dg.2 then some (String.mk dg.1) else none
  withS <|> noS

/-- After a kind alternative of `CAPTION_RE_SI`: `\.?\s+` then the number,
with the optional period tried greedily first (regex backtracking order). -/
def siAfterKind (kind : String) (r1 : List Char) : Option (String × String) :=
  let cont : List Char → Option (String × String) := fun r =>
    let sp := r.span isSpaceChar
    if sp.1.isEmpty then none
    else (siNumTail sp.2).map (fun n => (kind, n))
  match r1 with
  | '.' :: rest => cont rest <|> cont r1
  | _ => cont r1

/-- `CAPTION_RE_SI = ^(Fig(?:ure)?|Table)\.?\s+(S?\d+)(?:\.|\s+[^(\s])` with
`re.IGNORECASE`: alternatives tried in regex order (`Figure`, `Fig`,
`Table`), with backtracking between them. -/
def matchCaptionSI (s : List Char) : Option (String × String) :=
  ((dropLitCI "figure".data s).bind (siAfterKind "figure")) <|>
    ((dropLitCI "fig".data s).bind (siAfterKind "fig")) <|>
      ((dropLitCI "table".data s).bind (siAfterKind "table"))

/-- `SI_SECTION_RE`: `^(?:Supplementary\s+(?:Figure|Table|Note|Text|Method`
`|Discussion|Information)|S\d+\.\s+\S)` with `re.IGNORECASE`. -/
def matchSiSection (s : List Char) : Bool :=
  let alt1 :=
    match dropLitCI "supplementary".data s with
    | none => false
    | some r1 =>
      let sp := r1.span isSpaceChar
      if sp.1.isEmpty then false
      else
        ["figure", "table", "note", "text", "method", "discussion", "information"].any
          (fun kw => (dropLitCI kw.data sp.2).isSome)
  let alt2 :=
    match s with
    | c :: cr =>
      if c.toLower = 's' then
        let dg := cr.span Char.isDigit
        if dg.1.isEmpty then false
        else
          match dg.2 with
          | '.' :: r4 =>
            let sp := r4.span isSpaceChar
            if sp.1.isEmpty then false
            else
              match sp.2 with
              | h :: _ => !(isSpaceChar h)
              | [] => false
          | _ => false
      else false
    | [] => false
  alt1 || alt2

/-- A rendered intensity matrix (one grayscale value per pixel). -/
abbrev Image := List (List Nat)

/-- One entry of `page.get_text("blocks")`: bounding rectangle and text. -/
structure TextBlock where
  rect : Rect
  text : String
deriving DecidableEq, Repr, Inhabited

/-- One entry of `page.get_drawings()`: bounding rectangle and the
`"dashes"` value (a string, possibly absent). -/
structure Drawing where
  rect : Rect
  dashes : Option String
deriving DecidableEq, Repr, Inhabited

/-- A page as exposed by the PDF collaborator: geometry, text blocks,
vector drawings, and the opaque renderer
(`get_pixmap(matrix=mat, clip=r)` plus grayscale conversion). -/
structure Page where
  rect : Rect
  blocks : List TextBlock
  drawings : List Drawing
  render : Rect → Image

instance : Inhabited Page := ⟨⟨default, [], [], fun _ => []⟩⟩

/-- A caption record emitted by `find_all_captions`. -/
structure Caption where
  page : Nat
  label : String
  type : String
  rect : Rect
  caption_text : String
deriving DecidableEq, Repr, Inhabited

/-- The header keywords of `get_page_content_top`. -/
def headerKeywords : List String :=
  ["www.", "doi", "nature", "scientific", "journal"]

/-- `get_page_content_top(page)`: bottom of the running-header block
(a block starting within 40 units of the page top whose lowercased text
contains a header keyword) plus 2, else the default margin 10. -/
def getPageContentTop (page : Page) : ℚ :=
  let headerBottom := page.blocks.foldl
    (fun acc b =>
      let text := pyStrip b.text.data
      if b.rect.y0 < 40 ∧
          headerKeywords.any (fun kw => containsSub kw.data (text.map Char.toLower)) then
        max acc b.rect.y1
      else acc) 0
  if headerBottom > 0 then headerBottom + 2 else 10

/-- The check `dashes and str(dashes) != "[] 0"` on a drawing. -/
def isDashedDrawing (d : Drawing) : Bool :=
  match d.dashes with
  | none => false
  | some s => s != "" && s != "[] 0"

/-- The loop body of `get_dashed_separator_y`: keep the running maximum of
the qualifying dashed-line `y` coordinates. -/
def dashedStep (aboveY : ℚ) (result : Option ℚ) (d : Drawing) : Option ℚ :=
  if isDashedDrawing d then
    if d.rect.y0 < aboveY then
      match result with
      | none => some d.rect.y0
      | some r => if d.rect.y0 > r then some d.rect.y0 else some r
    else result
  else result

/-- `get_dashed_separator_y(page, above_y)`: the largest `rect.y0` of a
drawing with a non-trivial dash pattern lying above `above_y`, if any. -/
def getDashedSeparatorY (page : Page) (aboveY : ℚ) : Option ℚ :=
  page.drawings.foldl (dashedStep aboveY) none

/-- `get_si_section_header_bottom(page, above_y)`: the largest bottom of a
section-title block above `above_y`, else 0. -/
def getSiSectionHeaderBottom (page : Page) (aboveY : ℚ) : ℚ :=
  page.blocks.foldl
    (fun bottom b =>
      if b.rect.y1 < aboveY ∧ matchSiSection (pyStrip b.text.data) then
        max bottom b.rect.y1
      else bottom) 0

/-- Does the stripped block text match the mode's caption pattern
(`caption_re = CAPTION_RE_SI if si else CAPTION_RE_MAIN`)? -/
def captionMatches (si : Bool) (text : List Char) : Bool :=
  if si then (matchCaptionSI text).isSome else (matchCaptionMain text).isSome

/-- `get_last_content_bottom(page, caption_top_y, caption_re)`: bottom of
the last non-caption, non-section-header block whose bottom lies at or
above `caption_top_y + 5`, else 0. -/
def getLastContentBottom (page : Page) (captionTopY : ℚ) (si : Bool) : ℚ :=
  page.blocks.foldl
    (fun lastY b =>
      let text := pyStrip b.text.data
      if captionMatches si text then lastY
      else if matchSiSection text then lastY
      else if b.rect.y1 ≤ captionTopY + 5 then max lastY b.rect.y1
      else lastY) 0

/-- `re.sub(r'^[Ss]', '', num) or num`. -/
def stripLeadS (num : String) : String :=
  match num.data with
  | c :: rest =>
    if c = 'S' || c = 's' then
      if rest.isEmpty then num else String.mk rest
    else num
  | [] => num

/-- The caption record built from one matching block inside
`find_all_captions` (label construction, lines 220-236). -/
def captionOfBlock (si : Bool) (pnum : Nat) (b : TextBlock) : Option Caption :=
  let text := pyStrip b.text.data
  match (if si then matchCaptionSI text else matchCaptionMain text) with
  | none => none
  | some kn =>
    let kindNorm := if containsSub "table".data kn.1.data then "table" else "figure"
    let label :=
      if si then "s" ++ kindNorm ++ stripLeadS kn.2
      else kindNorm ++ kn.2
    some ⟨pnum, label, kindNorm, b.rect, String.mk text⟩

/-- The page loop of `find_all_captions`: page 0 of a supplementary
document is skipped entirely. -/
def findAllCaptionsAux (si : Bool) : Nat → List Page → List Caption
  | _, [] => []
  | pnum, pg :: rest =>
    (if si ∧ pnum = 0 then [] else pg.blocks.filterMap (captionOfBlock si pnum))
      ++ findAllCaptionsAux si (pnum + 1) rest

/-- `find_all_captions(doc, si)`. -/
def findAllCaptions (doc : List Page) (si : Bool) : List Caption :=
  findAllCaptionsAux si 0 doc

/-- The previous-caption / page-content baseline for the top boundary
(`extract_figure`, lines 262-265). -/
def baseTopY (page : Page) (prevCapBottom : Option ℚ) : ℚ :=
  match prevCapBottom with
  | some p => p + 3
  | none => getPageContentTop page

/-- The resolved top boundary `fig_top_y` (`extract_figure`, lines 261-292):
supplementary mode pushes past section titles and gapped body text, main
mode lets a dashed separator override the baseline. -/
def figTopY (page : Page) (cap : Caption) (prevCapBottom : Option ℚ) (si : Bool) : ℚ :=
  let capTopY := cap.rect.y0
  let base := baseTopY page prevCapBottom
  if si then
    let headerBottom := getSiSectionHeaderBottom page capTopY
    let t1 := if headerBottom > base then headerBottom + 2 else base
    let scanTop := if headerBottom > 0 then headerBottom else t1
    let lastTextY := page.blocks.foldl
      (fun acc b =>
        let text := pyStrip b.text.data
        if b.rect.y0 ≥ scanTop ∧ b.rect.y1 < capTopY - 5 ∧
            ¬captionMatches true text ∧ ¬matchSiSection text ∧ text ≠ [] then
          max acc b.rect.y1
        else acc) scanTop
    if lastTextY > scanTop ∧ capTopY - lastTextY > 30 then max t1 (lastTextY + 3) else t1
  else
    match getDashedSeparatorY page capTopY with
    | some y => if y > base then y + 2 else base
    | none => base

/-- The resolved bottom boundary `clip_bottom` (`extract_figure`,
lines 294-299). -/
def clipBottomY (page : Page) (cap : Caption) (si : Bool) : ℚ :=
  if si then max (getLastContentBottom page cap.rect.y0 true) cap.rect.y0 + 2
  else cap.rect.y0 - 3

/-- The above-caption clip rectangle (`extract_figure`, lines 301-306). -/
def resolveClip (page : Page) (cap : Caption) (prevCapBottom : Option ℚ) (si : Bool) : Rect :=
  ⟨page.rect.x0 + 3, figTopY page cap prevCapBottom si,
    page.rect.x1 - 3, clipBottomY page cap si⟩

/-- The bottom of the below-caption fallback region (`extract_figure`,
lines 323-331): the smallest top of a caption-matching block lying more
than 5 units below the caption bottom, minus 3; else page bottom minus 5.
The fallback runs only in supplementary mode, so `CAPTION_RE_SI` is the
caption pattern here. -/
def belowBottomY (page : Page) (cap : Caption) : ℚ :=
  let tops := page.blocks.filterMap
    (fun b =>
      if captionMatches true (pyStrip b.text.data) ∧ b.rect.y0 > cap.rect.y1 + 5 then
        some b.rect.y0
      else none)
  match tops.min? with
  | some y => y - 3
  | none => page.rect.y1 - 5

/-- The below-caption fallback clip rectangle (`extract_figure`,
lines 333-338). -/
def belowClipRect (page : Page) (cap : Caption) : Rect :=
  ⟨page.rect.x0 + 3, cap.rect.y1 + 3, page.rect.x1 - 3, belowBottomY page cap⟩

/-- Mean intensity of one pixel row, as `numpy`'s `row.mean()` (exact
rational arithmetic; `0` for an empty row, which only arises for
zero-width buffers that trim to `None` regardless). -/
def rowMeanQ {α : Type} (g : α → Nat) (row : List α) : ℚ :=
  ((row.map g).sum : ℚ) / (row.length : ℚ)

/-- Pass 1 of `trim_whitespace`: advance the trim top past rows whose mean
intensity is below 200, stopping once a row's mean exceeds 240
(`white_thresh - 5`). -/
def trimTopStart {α : Type} (g : α → Nat) : List (List α) → Nat → Nat → Nat
  | [], _, acc => acc
  | row :: rest, i, acc =>
    let m := rowMeanQ g row
    if m < 200 then trimTopStart g rest (i + 1) (i + 1)
    else if m > 240 then acc
    else trimTopStart g rest (i + 1) acc

/-- Pass 2 of `trim_whitespace`: the coordinates of the pixels darker than
`white_thresh = 245` (`np.argwhere(sub < white_thresh)`). -/
def maskCoords {α : Type} (g : α → Nat) (sub : List (List α)) : List (Nat × Nat) :=
  (sub.enum).flatMap fun ir =>
    (ir.2.enum).filterMap fun jc =>
      if g jc.2 < 245 then some (ir.1, jc.1) else none

/-- Pass 3 column test: `sub_for_right[:, c].min() < 220`. -/
def colHasDark {α : Type} (g : α → Nat) (sub : List (List α)) (c : Nat) : Bool :=
  match (sub.filterMap fun row => (row.get? c).map g).min? with
  | some m => decide (m < 220)
  | none => false

/-- Pass 3 scan: `for c in range(w - 1, x0, -1)` looking for the first
column (from the right) containing a pixel darker than 220. -/
def findRightEnd {α : Type} (g : α → Nat) (sub : List (List α)) (x0 : Nat) : Nat → Option Nat
  | 0 => none
  | c + 1 =>
    if c + 1 ≤ x0 then none
    else if colHasDark g sub (c + 1) then some (c + 1)
    else findRightEnd g sub x0 c

/-- `trim_whitespace(img, pad=10, white_thresh=245, dark_row_thresh=200)`:
the three-pass trimmer.  `g` is the grayscale view of a pixel
(`cv2.cvtColor(img, cv2.COLOR_BGR2GRAY)`); the returned buffer is the
slice of the original `img`.  All call sites use the default thresholds,
which appear here as literals. -/
def trimWhitespace {α : Type} (g : α → Nat) (img : List (List α)) : Option (List (List α)) :=
  let h := img.length
  let w := match img with | [] => 0 | row :: _ => row.length
  let topStart := trimTopStart g img 0 0
  let sub := img.drop topStart
  match maskCoords g sub with
  | [] => none
  | c0 :: cs =>
    let y0 := (cs.map Prod.fst).foldl min c0.1 + topStart
    let x0 := (cs.map Prod.snd).foldl min c0.2
    let y1 := (cs.map Prod.fst).foldl max c0.1 + topStart
    let xm := (cs.map Prod.snd).foldl max c0.2
    let rightEnd := match findRightEnd g sub x0 (w - 1) with
      | some c => c
      | none => xm
    let x1 := min (rightEnd + 12) (w - 1)
    let loR := y0 - 10
    let hiR := min h (y1 + 10 + 1)
    let loC := x0 - 10
    let hiC := min w (x1 + 10 + 1)
    some (((img.drop loR).take (hiR - loR)).map fun row => (row.drop loC).take (hiC - loC))

/-- `img.shape[1]` of a rendered/trimmed buffer (rectangular by
construction in the source; the first row carries the width). -/
def imgWidth {α : Type} (img : List (List α)) : Nat :=
  match img with
  | [] => 0
  | row :: _ => row.length

/-- Render-and-trim of one candidate clip rectangle: the shared shape of
`extract_figure` lines 308-318 (above region) and 339-346 (fallback
region): abandon the region unless width and height are at least 20,
render, trim, and abandon again if the trimmed buffer is smaller than
20 x 20 pixels. -/
def renderTrim (page : Page) (clip : Rect) : Option Image :=
  if clip.height < 20 ∨ clip.width < 20 then none
  else
    match trimWhitespace id (page.render clip) with
    | none => none
    | some out => if out.length < 20 ∨ imgWidth out < 20 then none else some out

/-- `extract_figure(doc, caption, prev_cap_bottom, mat, si)`: resolve and
trim the above-caption region, falling back (supplementary mode only) to
the below-caption region; on success return the image and the caption's
bottom `y`. -/
def extractFigure (doc : List Page) (cap : Caption) (prevCapBottom : Option ℚ) (si : Bool) :
    Option (Image × ℚ) :=
  let page := doc.getD cap.page default
  let above := renderTrim page (resolveClip page cap prevCapBottom si)
  let img :=
    match above with
    | some i => some i
    | none => if si then renderTrim page (belowClipRect page cap) else none
  match img with
  | none => none
  | some i => some (i, cap.rect.y1)

/-- One record of the output manifest. -/
structure ManifestEntry where
  label : String
  type : String
  path : String
  caption_text : String
deriving DecidableEq, Repr, Inhabited

/-- The orchestrator's loop state: the manifest built so far, the per-page
previous-caption-bottom mapping, the locked-in labels, and the image files
written so far (path and pixel data). -/
structure RunState where
  manifest : List ManifestEntry
  prevCapBottomByPage : List (Nat × ℚ)
  extractedLabels : List String
  images : List (String × Image)
deriving DecidableEq, Repr, Inhabited

/-- `prev_cap_bottom_by_page.get(page_num)` (most recent binding wins). -/
def lookupPrev (m : List (Nat × ℚ)) (p : Nat) : Option ℚ :=
  (m.find? fun e => e.1 == p).map Prod.snd

/-- One iteration of the caption loop in `run` (lines 369-397): skip a
locked-in label, skip a caption whose extraction fails, and otherwise
update the page's previous-caption bottom, lock in the label, write the
image and append the manifest entry. -/
def runStep (doc : List Page) (outDir : String) (si : Bool) (st : RunState) (cap : Caption) :
    RunState :=
  if cap.label ∈ st.extractedLabels then st
  else
    match extractFigure doc cap (lookupPrev st.prevCapBottomByPage cap.page) si with
    | none => st
    | some r =>
      let path := outDir ++ "/" ++ cap.label ++ ".png"
      { manifest := st.manifest ++ [⟨cap.label, cap.type, path, cap.caption_text⟩]
        prevCapBottomByPage := (cap.page, r.2) :: st.prevCapBottomByPage
        extractedLabels := st.extractedLabels ++ [cap.label]
        images := st.images ++ [(path, r.1)] }

/-- The observable outcome of `run`: its return value, the image files it
wrote, and the content of `manifest.json` if that file was written. -/
structure RunResult where
  ret : List ManifestEntry
  images : List (String × Image)
  manifestFile : Option (List ManifestEntry)
deriving DecidableEq, Repr

/-- `run(pdf_path, out_dir, si)` on an opened document: detect captions,
return early (writing nothing) when there are none, else run the caption
loop and write the manifest once at the end. -/
def run (doc : List Page) (outDir : String) (si : Bool) : RunResult :=
  let captions := findAllCaptions doc si
  if captions.isEmpty then ⟨[], [], none⟩
  else
    let st := captions.foldl (runStep doc outDir si) ⟨[], [], [], []⟩
    ⟨st.manifest, st.images, some st.manifest⟩

/-- The spec's wording of the supplementary bottom boundary, written for
comparison with the code's `clipBottomY`: "max(caption-top + 2, bottom of
the last non-caption, non-section-header block whose bottom lies at or
above caption-top + 5)". -/
def specSiBottomY (page : Page) (cap : Caption) : ℚ :=
  max (cap.rect.y0 + 2) (getLastContentBottom page cap.rect.y0 true)

/-- The spec's wording of the fallback region bottom, written for
comparison with the code's `belowBottomY`: "the next same-type caption's
top − 3 on the page if one exists, else page-bottom − 5". -/
def specSameTypeBelowBottomY (page : Page) (cap : Caption) : ℚ :=
  let tops := page.blocks.filterMap
    (fun b =>
      match matchCaptionSI (pyStrip b.text.data) with
      | some kn =>
        if (if containsSub "table".data kn.1.data then "table" else "figure") = cap.type ∧
            b.rect.y0 > cap.rect.y1 + 5 then
          some b.rect.y0
        else none
      | none => none)
  match tops.min? with
  | some y => y - 3
  | none => page.rect.y1 - 5

/-! Concrete fixtures used by the witnesses and counterexamples below:
small pages with explicit blocks, drawings and renderers. -/

/-- A 20 x 20 buffer of uniform intensity 230: dark enough to be content
for all three trim passes, light enough not to be a header bar; the
trimmer returns it unchanged, and it meets the 20-pixel minimum. -/
def goodImg : Image := List.replicate 20 (List.replicate 20 230)

/-- A single pure-white pixel (255): trims to nothing. -/
def whiteImg : Image := [[255]]

/-- Main-mode page with a single caption block. -/
def pgW : Page := ⟨⟨0, 0, 612, 800⟩, [⟨⟨50, 700, 500, 720⟩, "Figure 1."⟩], [], fun _ => goodImg⟩

def docW : List Page := [pgW]

def capW : Caption := ⟨0, "figure1", "figure", ⟨50, 700, 500, 720⟩, "Figure 1."⟩

/-- Main-mode page none of whose blocks matches the caption grammar. -/
def pgNoCap : Page :=
  ⟨⟨0, 0, 612, 800⟩, [⟨⟨50, 100, 500, 120⟩, "Hello world"⟩], [], fun _ => goodImg⟩

def docNoCap : List Page := [pgNoCap]

/-- Supplementary page for the fallback scenario: a figure caption whose
above-region renders to white, and a table caption further down; the
renderer yields content exactly for the code's below-caption clip. -/
def pg3 : Page :=
  ⟨⟨0, 0, 200, 400⟩,
    [⟨⟨10, 60, 190, 80⟩, "Figure S1. Top"⟩, ⟨⟨10, 200, 190, 220⟩, "Table S2. Bottom"⟩],
    [],
    fun r => if r = ⟨3, 83, 197, 197⟩ then goodImg else whiteImg⟩

def cap3 : Caption := ⟨0, "sfigure1", "figure", ⟨10, 60, 190, 80⟩, "Figure S1. Top"⟩

/-- Main-mode page with one dashed separator drawing between the content
top and the caption. -/
def pg4 : Page :=
  ⟨⟨0, 0, 200, 400⟩,
    [⟨⟨10, 300, 190, 320⟩, "Figure 1. W"⟩],
    [⟨⟨10, 100, 190, 101⟩, some "[3 3] 0"⟩],
    fun _ => goodImg⟩

def cap4 : Caption := ⟨0, "figure1", "figure", ⟨10, 300, 190, 320⟩, "Figure 1. W"⟩

/-- Supplementary page where an axis-label block overlaps the caption:
its bottom (103) lies below the caption top (100) but within 5 units. -/
def pg5 : Page :=
  ⟨⟨0, 0, 200, 400⟩,
    [⟨⟨10, 100, 190, 120⟩, "Figure S1. X"⟩, ⟨⟨10, 60, 190, 103⟩, "data"⟩],
    [],
    fun _ => goodImg⟩

def cap5 : Caption := ⟨0, "sfigure1", "figure", ⟨10, 100, 190, 120⟩, "Figure S1. X"⟩

/-- Main-mode page sized so the resolved region is exactly 20 x 20. -/
def pg6 : Page :=
  ⟨⟨0, 0, 26, 400⟩, [⟨⟨2, 33, 24, 50⟩, "Figure 1. X"⟩], [], fun _ => goodImg⟩

def cap6 : Caption := ⟨0, "figure1", "figure", ⟨2, 33, 24, 50⟩, "Figure 1. X"⟩

/-- Supplementary page whose caption hugs the page bottom, so the resolved
bottom boundary (caption-top + 2) exceeds the page's own bottom edge. -/
def pg7 : Page :=
  ⟨⟨0, 0, 200, 792⟩,
    [⟨⟨10, 791, 190, 792⟩, "Figure S1. Z"⟩, ⟨⟨10, 300, 190, 700⟩, "data"⟩],
    [],
    fun _ => goodImg⟩

def cap7 : Caption := ⟨0, "sfigure1", "figure", ⟨10, 791, 190, 792⟩, "Figure S1. Z"⟩

/-- The spec's scenario page: height 800, one block `"Figure 1."` at
`(50, 700, 500, 720)`, arbitrary width and renderer. -/
def pg8 (w : ℚ) (rend : Rect → Image) : Page :=
  ⟨⟨0, 0, w, 800⟩, [⟨⟨50, 700, 500, 720⟩, "Figure 1."⟩], [], rend⟩

def cap8 : Caption := ⟨0, "figure1", "figure", ⟨50, 700, 500, 720⟩, "Figure 1."⟩

/-- A run state whose lock-in set already holds `"figure1"`. -/
def stLocked : RunState := ⟨[], [], ["figure1"], []⟩

/-- A caption whose resolved region on `pgW` is degenerate (bottom above
top), so extraction fails. -/
def capSmall : Caption := ⟨0, "figure9", "figure", ⟨50, 10, 500, 20⟩, "Figure 9."⟩

/-- The orchestrator invariant: manifest labels are distinct and every
manifest label is locked in. -/
def LabelsOk (st : RunState) : Prop :=
  (st.manifest.map (fun e => e.label)).Nodup ∧
    ∀ e ∈ st.manifest, e.label ∈ st.extractedLabels

/-! Lemmas about the orchestrator loop. -/

theorem runStep_skip_of_mem (doc : List Page) (outDir : String) (si : Bool) (st : RunState)
    (cap : Caption) (h : cap.label ∈ st.extractedLabels) :
    runStep doc outDir si st cap = st := by
  unfold runStep
  rw [if_pos h]

theorem runStep_skip_of_none (doc : List Page) (outDir : String) (si : Bool) (st : RunState)
    (cap : Caption) (h1 : cap.label ∉ st.extractedLabels)
    (h2 : extractFigure doc cap (lookupPrev st.prevCapBottomByPage cap.page) si = none) :
    runStep doc outDir si st cap = st := by
  unfold runStep
  rw [if_neg h1, h2]

theorem runStep_of_some (doc : List Page) (outDir : String) (si : Bool) (st : RunState)
    (cap : Caption) (r : Image × ℚ) (h1 : cap.label ∉ st.extractedLabels)
    (h2 : extractFigure doc cap (lookupPrev st.prevCapBottomByPage cap.page) si = some r) :
    runStep doc outDir si st cap =
      ⟨st.manifest ++
          [⟨cap.label, cap.type, outDir ++ "/" ++ cap.label ++ ".png", cap.caption_text⟩],
        (cap.page, r.2) :: st.prevCapBottomByPage,
        st.extractedLabels ++ [cap.label],
        st.images ++ [(outDir ++ "/" ++ cap.label ++ ".png", r.1)]⟩ := by
  unfold runStep
  rw [if_neg h1, h2]

theorem labelsOk_runStep (doc : List Page) (outDir : String) (si : Bool) (st : RunState)
    (cap : Caption) (h : LabelsOk st) : LabelsOk (runStep doc outDir si st cap) := by
  by_cases hm : cap.label ∈ st.extractedLabels
  · rw [runStep_skip_of_mem doc outDir si st cap hm]; exact h
  · cases hx : extractFigure doc cap (lookupPrev st.prevCapBottomByPage cap.page) si with
    | none => rw [runStep_skip_of_none doc outDir si st cap hm hx]; exact h
    | some r =>
      rw [runStep_of_some doc outDir si st cap r hm hx]
      constructor
      · have hnotin : cap.label ∉ st.manifest.map (fun e => e.label) := by
          intro hmem
          obtain ⟨e, he, hl⟩ := List.mem_map.1 hmem
          exact hm (hl ▸ h.2 e he)
        simp only [List.map_append, List.map_cons, List.map_nil]
        exact (List.nodup_append).2 ⟨h.1, List.nodup_singleton _,
          List.disjoint_singleton.2 hnotin⟩
      · intro e he
        rcases List.mem_append.1 he with he | he
        · exact List.mem_append_left _ (h.2 e he)
        · rcases List.mem_singleton.1 he with rfl
          exact List.mem_append_right _ (List.mem_singleton.2 rfl)

theorem labelsOk_foldl (doc : List Page) (outDir : String) (si : Bool) (caps : List Caption)
    (st : RunState) (h : LabelsOk st) :
    LabelsOk (caps.foldl (runStep doc outDir si) st) := by
  induction caps generalizing st with
  | nil => exact h
  | cons c cs ih => exact ih _ (labelsOk_runStep doc outDir si st c h)

theorem run_labels_nodup (doc : List Page) (outDir : String) (si : Bool) :
    ((run doc outDir si).ret.map (fun e => e.label)).Nodup := by
  cases h : (findAllCaptions doc si).isEmpty with
  | true => simp [run, h]
  | false =>
    simp only [run, h, Bool.false_eq_true, if_false]
    exact (labelsOk_foldl doc outDir si (findAllCaptions doc si) ⟨[], [], [], []⟩
      ⟨List.nodup_nil, fun e he => absurd he (List.not_mem_nil e)⟩).1

/-! Lemmas about region rendering and `extract_figure`. -/

theorem renderTrim_none_of_small (page : Page) (r : Rect)
    (h : r.height < 20 ∨ r.width < 20) : renderTrim page r = none := by
  unfold renderTrim
  rw [if_pos h]

theorem renderTrim_some_size (page : Page) (r : Rect) (img : Image)
    (h : renderTrim page r = some img) : 20 ≤ r.height ∧ 20 ≤ r.width := by
  unfold renderTrim at h
  by_cases hs : r.height < 20 ∨ r.width < 20
  · rw [if_pos hs] at h
    exact absurd h (by simp)
  · push_neg at hs
    exact ⟨hs.1, hs.2⟩

theorem extractFigure_some_cases (doc : List Page) (cap : Caption) (prev : Option ℚ)
    (si : Bool) (img : Image) (y : ℚ) (h : extractFigure doc cap prev si = some (img, y)) :
    y = cap.rect.y1 ∧
      (renderTrim (doc.getD cap.page default)
          (resolveClip (doc.getD cap.page default) cap prev si) = some img ∨
        (si = true ∧
          renderTrim (doc.getD cap.page default)
            (resolveClip (doc.getD cap.page default) cap prev si) = none ∧
          renderTrim (doc.getD cap.page default)
            (belowClipRect (doc.getD cap.page default) cap) = some img)) := by
  simp only [extractFigure] at h
  rcases ha : renderTrim (doc.getD cap.page default)
      (resolveClip (doc.getD cap.page default) cap prev si) with _ | i
  · rw [ha] at h
    cases si with
    | false => simp at h
    | true =>
      rcases hb : renderTrim (doc.getD cap.page default)
          (belowClipRect (doc.getD cap.page default) cap) with _ | j
      · rw [hb] at h
        simp at h
      · rw [hb] at h
        simp at h
        obtain ⟨hj, hyy⟩ := h
        exact ⟨hyy.symm, Or.inr ⟨rfl, rfl, by rw [hj]⟩⟩
  · rw [ha] at h
    simp at h
    obtain ⟨hi, hyy⟩ := h
    exact ⟨hyy.symm, Or.inl (by rw [hi])⟩

/-! Lemmas about caption detection on caption-free documents. -/

theorem captionOfBlock_eq_none (si : Bool) (n : Nat) (b : TextBlock)
    (h : captionMatches si (pyStrip b.text.data) = false) :
    captionOfBlock si n b = none := by
  unfold captionMatches at h
  cases si with
  | false =>
    cases hm : matchCaptionMain (pyStrip b.text.data) with
    | none => simp [captionOfBlock, hm]
    | some kn => simp [hm] at h
  | true =>
    cases hm : matchCaptionSI (pyStrip b.text.data) with
    | none => simp [captionOfBlock, hm]
    | some kn => simp [hm] at h

theorem findAllCaptionsAux_eq_nil (si : Bool) (n : Nat) (doc : List Page)
    (h : ∀ pg ∈ doc, ∀ b ∈ pg.blocks, captionMatches si (pyStrip b.text.data) = false) :
    findAllCaptionsAux si n doc = [] := by
  induction doc generalizing n with
  | nil => rfl
  | cons pg rest ih =>
    unfold findAllCaptionsAux
    rw [ih (n + 1) (fun p hp => h p (List.mem_cons_of_mem pg hp)), List.append_nil]
    split
    · rfl
    · rw [List.filterMap_eq_nil_iff]
      intro b hb
      exact captionOfBlock_eq_none si n b (h pg (List.mem_cons_self pg rest) b hb)

/-! Lemmas about the dashed-separator maximum fold. -/

theorem dashedFold_sources (aboveY : ℚ) (l : List Drawing) :
    ∀ (acc : Option ℚ) (y : ℚ), l.foldl (dashedStep aboveY) acc = some y →
      acc = some y ∨
        ∃ d ∈ l, isDashedDrawing d = true ∧ d.rect.y0 < aboveY ∧ d.rect.y0 = y := by
  induction l with
  | nil => exact fun acc y h => Or.inl h
  | cons d l ih =>
    intro acc y h
    rcases ih (dashedStep aboveY acc d) y h with hacc | ⟨e, he, h1, h2, h3⟩
    · by_cases hd : isDashedDrawing d = true
      · by_cases hy : d.rect.y0 < aboveY
        · cases acc with
          | none =>
            simp only [dashedStep, hd, if_true, hy] at hacc
            exact Or.inr ⟨d, List.mem_cons_self d l, hd, hy, Option.some.inj hacc⟩
          | some r =>
            by_cases hgt : d.rect.y0 > r
            · simp only [dashedStep, hd, hy, hgt, if_true] at hacc
              exact Or.inr ⟨d, List.mem_cons_self d l, hd, hy, Option.some.inj hacc⟩
            · simp only [dashedStep, hd, hy, hgt, if_true, if_false] at hacc
              exact Or.inl hacc
        · simp only [dashedStep, hd, hy, if_true, if_false] at hacc
          exact Or.inl hacc
      · simp only [dashedStep] at hacc
        rw [if_neg hd] at hacc
        exact Or.inl hacc
    · exact Or.inr ⟨e, List.mem_cons_of_mem d he, h1, h2, h3⟩

theorem dashedFold_mono (aboveY : ℚ) (l : List Drawing) :
    ∀ a : ℚ, ∃ y, l.foldl (dashedStep aboveY) (some a) = some y ∧ a ≤ y := by
  induction l with
  | nil => exact fun a => ⟨a, rfl, le_refl a⟩
  | cons d l ih =>
    intro a
    have hstep : ∃ b, dashedStep aboveY (some a) d = some b ∧ a ≤ b := by
      by_cases hd : isDashedDrawing d = true
      · by_cases hy : d.rect.y0 < aboveY
        · by_cases hgt : d.rect.y0 > a
          · exact ⟨d.rect.y0, by simp [dashedStep, hd, hy, hgt], le_of_lt hgt⟩
          · exact ⟨a, by simp [dashedStep, hd, hy, hgt], le_refl a⟩
        · exact ⟨a, by simp [dashedStep, hd, hy], le_refl a⟩
      · exact ⟨a, by simp [dashedStep, hd], le_refl a⟩
    obtain ⟨b, hb, hab⟩ := hstep
    obtain ⟨y, hy2, hby⟩ := ih b
    exact ⟨y, by rw [List.foldl_cons, hb]; exact hy2, le_trans hab hby⟩

theorem dashedFold_ge (aboveY : ℚ) (l : List Drawing) :
    ∀ (acc : Option ℚ) (d : Drawing), d ∈ l → isDashedDrawing d = true →
      d.rect.y0 < aboveY →
      ∃ y, l.foldl (dashedStep aboveY) acc = some y ∧ d.rect.y0 ≤ y := by
  induction l with
  | nil => exact fun acc d hd => absurd hd (List.not_mem_nil d)
  | cons e l ih =>
    intro acc d hd hq ha
    rcases List.mem_cons.1 hd with rfl | hmem
    · have hstep : ∃ b, dashedStep aboveY acc d = some b ∧ d.rect.y0 ≤ b := by
        cases acc with
        | none => exact ⟨d.rect.y0, by simp [dashedStep, hq, ha], le_refl _⟩
        | some r =>
          by_cases hgt : d.rect.y0 > r
          · exact ⟨d.rect.y0, by simp [dashedStep, hq, ha, hgt], le_refl _⟩
          · exact ⟨r, by simp [dashedStep, hq, ha, hgt], le_of_not_lt hgt⟩
      obtain ⟨b, hb, hdb⟩ := hstep
      obtain ⟨y, hy2, hby⟩ := dashedFold_mono aboveY l b
      exact ⟨y, by rw [List.foldl_cons, hb]; exact hy2, le_trans hdb hby⟩
    · exact ih (dashedStep aboveY acc e) d hmem hq ha

theorem getDashedSeparatorY_eq_max (pg : Page) (aboveY : ℚ) (d : Drawing)
    (hmem : d ∈ pg.drawings) (hq : isDashedDrawing d = true) (hlt : d.rect.y0 < aboveY)
    (hmax : ∀ e ∈ pg.drawings, isDashedDrawing e = true → e.rect.y0 < aboveY →
      e.rect.y0 ≤ d.rect.y0) :
    getDashedSeparatorY pg aboveY = some d.rect.y0 := by
  obtain ⟨y, hy, hge⟩ := dashedFold_ge aboveY pg.drawings none d hmem hq hlt
  rcases dashedFold_sources aboveY pg.drawings none y hy with hacc | ⟨e, he, h1, h2, h3⟩
  · exact absurd hacc (by simp)
  · have hle : y ≤ d.rect.y0 := h3 ▸ hmax e he h1 h2
    rw [show d.rect.y0 = y from le_antisymm hge hle]
    exact hy

/-! Lemmas about the trimmer's crop structure. -/

theorem slice_spec {α : Type} (img : List (List α)) (lo t lc s : Nat) :
    (((img.drop lo).take t).map (fun row => (row.drop lc).take s)).length ≤ img.length ∧
      ∀ i rowO,
        (((img.drop lo).take t).map (fun row => (row.drop lc).take s))[i]? = some rowO →
        ∃ rowI, img[lo + i]? = some rowI ∧ rowO.length ≤ rowI.length ∧
          ∀ j x, rowO[j]? = some x → rowI[lc + j]? = some x := by
  constructor
  · simp only [List.length_map, List.length_take, List.length_drop]
    omega
  · intro i rowO h
    rw [List.getElem?_map] at h
    obtain ⟨rowI, hbase, hf⟩ := Option.map_eq_some'.1 h
    have hi : i < t := by
      by_contra hge
      rw [List.getElem?_take_eq_none (le_of_not_lt hge)] at hbase
      exact Option.noConfusion hbase
    rw [List.getElem?_take_of_lt hi, List.getElem?_drop] at hbase
    have hf' : (rowI.drop lc).take s = rowO := hf
    refine ⟨rowI, hbase, ?_, ?_⟩
    · rw [← hf']
      simp only [List.length_take, List.length_drop]
      omega
    · intro j x hx
      rw [← hf'] at hx
      have hj : j < s := by
        by_contra hge
        rw [List.getElem?_take_eq_none (le_of_not_lt hge)] at hx
        exact Option.noConfusion hx
      rw [List.getElem?_take_of_lt hj, List.getElem?_drop] at hx
      exact hx

set_option maxRecDepth 8000

/-! The claims. -/

/-- C1: for every run, the manifest contains at most one entry per label
(its label column is duplicate-free); a caption whose label is already
locked in is skipped before any extraction is attempted; a label is
locked in exactly when an extraction for it succeeds, and a failed
occurrence leaves the lock-in set unchanged, so a later occurrence of the
same label can still be extracted and recorded. -/
theorem claim_C1_label_dedup :
    (∀ (doc : List Page) (outDir : String) (si : Bool),
      ((run doc outDir si).ret.map (fun e => e.label)).Nodup) ∧
    (∀ (doc : List Page) (outDir : String) (si : Bool) (st : RunState) (cap : Caption),
      cap.label ∈ st.extractedLabels → runStep doc outDir si st cap = st) ∧
    (∀ (doc : List Page) (outDir : String) (si : Bool) (st : RunState) (cap : Caption),
      cap.label ∉ st.extractedLabels →
      extractFigure doc cap (lookupPrev st.prevCapBottomByPage cap.page) si = none →
      runStep doc outDir si st cap = st) ∧
    (∀ (doc : List Page) (outDir : String) (si : Bool) (st : RunState) (cap : Caption)
        (img : Image) (y : ℚ),
      cap.label ∉ st.extractedLabels →
      extractFigure doc cap (lookupPrev st.prevCapBottomByPage cap.page) si = some (img, y) →
      (runStep doc outDir si st cap).manifest =
        st.manifest ++
          [⟨cap.label, cap.type, outDir ++ "/" ++ cap.label ++ ".png", cap.caption_text⟩] ∧
      (runStep doc outDir si st cap).extractedLabels = st.extractedLabels ++ [cap.label]) := by
  refine ⟨run_labels_nodup, runStep_skip_of_mem, runStep_skip_of_none, ?_⟩
  intro doc outDir si st cap img y h1 h2
  rw [runStep_of_some doc outDir si st cap (img, y) h1 h2]
  exact ⟨rfl, rfl⟩

theorem claim_C1_label_dedup_witness :
    ((run docW "out" false).ret.map (fun e => e.label)).Nodup ∧
      runStep docW "out" false stLocked capW = stLocked :=
  ⟨claim_C1_label_dedup.1 docW "out" false,
    claim_C1_label_dedup.2.1 docW "out" false stLocked capW (by with_unfolding_all decide)⟩

/-- C2 (amended): for a document in which no text block matches the
caption grammar, the run completes returning an empty manifest and
produces no files at all: no image files and no manifest file (the run
returns before the manifest write, so the manifest file does not hold an
empty array — it is never written). -/
theorem claim_C2_empty_run (doc : List Page) (outDir : String) (si : Bool)
    (h : ∀ pg ∈ doc, ∀ b ∈ pg.blocks, captionMatches si (pyStrip b.text.data) = false) :
    run doc outDir si = ⟨[], [], none⟩ := by
  have hnil : findAllCaptions doc si = [] := findAllCaptionsAux_eq_nil si 0 doc h
  simp [run, hnil]

/-- C2 counterexample: on a concrete one-page document none of whose
blocks matches the caption grammar, the run produces no image files and
no manifest file, so the manifest file does not hold an empty array as
the claim states — it is never written. -/
theorem claim_C2_cex :
    run docNoCap "out" false = ⟨[], [], none⟩ ∧
      (run docNoCap "out" false).manifestFile ≠ some [] := by
  constructor
  · with_unfolding_all decide
  · with_unfolding_all decide

theorem claim_C2_empty_run_witness :
    run docNoCap "out" false = ⟨[], [], none⟩ :=
  claim_C2_empty_run docNoCap "out" false (by with_unfolding_all decide)

/-- C9: processing a caption that is skipped — its label already locked
in, or its region resolution/trim yields no usable image — leaves the run
state unchanged: no image file written, no manifest entry appended, the
label not locked in, and the previous-caption-bottom mapping untouched. -/
theorem claim_C9_skip_frame (doc : List Page) (outDir : String) (si : Bool) (st : RunState)
    (cap : Caption)
    (h : cap.label ∈ st.extractedLabels ∨
      extractFigure doc cap (lookupPrev st.prevCapBottomByPage cap.page) si = none) :
    runStep doc outDir si st cap = st := by
  rcases h with h | h
  · exact runStep_skip_of_mem doc outDir si st cap h
  · by_cases hm : cap.label ∈ st.extractedLabels
    · exact runStep_skip_of_mem doc outDir si st cap hm
    · exact runStep_skip_of_none doc outDir si st cap hm h

theorem claim_C9_skip_frame_witness :
    runStep docW "out" false ⟨[], [], [], []⟩ capSmall = ⟨[], [], [], []⟩ :=
  claim_C9_skip_frame docW "out" false ⟨[], [], [], []⟩ capSmall (Or.inr (by with_unfolding_all decide))

/-- C10: whenever the three-pass trimmer returns a non-empty result, that
result is a contiguous rectangular sub-region of the input buffer with
pixel values unchanged: there are fixed row and column offsets at which
every output pixel equals the corresponding input pixel, and — because
the crop indices are clipped to the input's bounds — the output's height
and each output row's width never exceed the input's. -/
theorem claim_C10_trim_subregion {α : Type} (g : α → Nat) (img out : List (List α))
    (h : trimWhitespace g img = some out) :
    ∃ (r : Nat) (c : Nat),
      out.length ≤ img.length ∧
        ∀ (i : Nat) (rowO : List α), out[i]? = some rowO →
          ∃ rowI : List α, img[r + i]? = some rowI ∧ rowO.length ≤ rowI.length ∧
            ∀ (j : Nat) (x : α), rowO[j]? = some x → rowI[c + j]? = some x := by
  rcases hm : maskCoords g (img.drop (trimTopStart g img 0 0)) with _ | ⟨c0, cs⟩
  · simp only [trimWhitespace, hm] at h
    exact Option.noConfusion h
  · simp only [trimWhitespace, hm] at h
    obtain rfl := (Option.some.inj h).symm
    exact ⟨_, _, slice_spec img _ _ _ _⟩

theorem claim_C10_trim_subregion_witness :
    trimWhitespace (fun n => n) [[230]] = some [[230]] ∧
      ∃ (r : Nat) (c : Nat),
        ([[230]] : List (List Nat)).length ≤ ([[230]] : List (List Nat)).length ∧
          ∀ (i : Nat) (rowO : List Nat), ([[230]] : List (List Nat))[i]? = some rowO →
            ∃ rowI : List Nat, ([[230]] : List (List Nat))[r + i]? = some rowI ∧
              rowO.length ≤ rowI.length ∧
              ∀ (j : Nat) (x : Nat), rowO[j]? = some x → rowI[c + j]? = some x :=
  ⟨by with_unfolding_all decide,
    claim_C10_trim_subregion (fun n => n) [[230]] [[230]] (by with_unfolding_all decide)⟩

/-- C3 counterexample: on a concrete supplementary page whose figure
caption's above-region renders and trims to empty, the fallback succeeds
using the region bounded by the next caption of the *other* type (a table
caption); the region the claim describes — bounded by the next same-type
caption, here absent, hence page-bottom − 5 — renders and trims to empty
and has a different bottom, so the extracted image cannot come from the
claim's region. -/
theorem claim_C3_cex :
    renderTrim pg3 (resolveClip pg3 cap3 none true) = none ∧
      extractFigure [pg3] cap3 none true = some (goodImg, 80) ∧
      renderTrim pg3
        ⟨pg3.rect.x0 + 3, cap3.rect.y1 + 3, pg3.rect.x1 - 3,
          specSameTypeBelowBottomY pg3 cap3⟩ = none ∧
      belowBottomY pg3 cap3 ≠ specSameTypeBelowBottomY pg3 cap3 := by
  refine ⟨?_, ?_, ?_, ?_⟩ <;> with_unfolding_all decide

/-- C3 (amended): in supplementary mode, for every caption whose
above-caption region yields no usable image, a below-caption region is
resolved instead, spanning from caption-bottom + 3 down to (the topmost
caption block of either type — not only the same type — whose top lies
more than 5 units below the caption's bottom) − 3 if one exists, else
page-bottom − 5; when this fallback succeeds the extracted image comes
from the below-region, the returned bottom is the caption's own bottom,
and the manifest entry records the original caption text unchanged. -/
theorem claim_C3_below_fallback (doc : List Page) (cap : Caption) (prev : Option ℚ)
    (outDir : String) (st : RunState) (img : Image)
    (h1 : renderTrim (doc.getD cap.page default)
      (resolveClip (doc.getD cap.page default) cap prev true) = none)
    (h2 : renderTrim (doc.getD cap.page default)
      (belowClipRect (doc.getD cap.page default) cap) = some img) :
    extractFigure doc cap prev true = some (img, cap.rect.y1) ∧
      belowClipRect (doc.getD cap.page default) cap =
        ⟨(doc.getD cap.page default).rect.x0 + 3, cap.rect.y1 + 3,
          (doc.getD cap.page default).rect.x1 - 3,
          belowBottomY (doc.getD cap.page default) cap⟩ ∧
      (cap.label ∉ st.extractedLabels →
        lookupPrev st.prevCapBottomByPage cap.page = prev →
        (runStep doc outDir true st cap).manifest =
          st.manifest ++
            [⟨cap.label, cap.type, outDir ++ "/" ++ cap.label ++ ".png",
              cap.caption_text⟩]) := by
  have hex : extractFigure doc cap prev true = some (img, cap.rect.y1) := by
    simp only [extractFigure, h1, h2]
    rfl
  refine ⟨hex, rfl, ?_⟩
  intro hmem hprev
  rw [runStep_of_some doc outDir true st cap (img, cap.rect.y1) hmem (by rw [hprev]; exact hex)]

theorem claim_C3_below_fallback_witness :
    extractFigure [pg3] cap3 none true = some (goodImg, cap3.rect.y1) ∧
      (runStep [pg3] "out" true ⟨[], [], [], []⟩ cap3).manifest =
        [⟨"sfigure1", "figure", "out/sfigure1.png", "Figure S1. Top"⟩] := by
  have h := claim_C3_below_fallback [pg3] cap3 none "out" ⟨[], [], [], []⟩ goodImg
    (by with_unfolding_all decide) (by with_unfolding_all decide)
  exact ⟨h.1,
    (h.2.2 (by with_unfolding_all decide) rfl).trans (by with_unfolding_all decide)⟩

/-- C4: in main mode, when a dashed separator (a drawing with a
non-trivial dash pattern) lies strictly between the
previous-caption-derived top and the current caption's top — and it is
the lowest such dashed line, the one the scan selects — the resolved top
boundary equals the dashed line's `y` + 2, a value exceeding the
previous-caption-derived one. -/
theorem claim_C4_dashed_top (pg : Page) (cap : Caption) (prev : Option ℚ) (d : Drawing)
    (hmem : d ∈ pg.drawings) (hdash : isDashedDrawing d = true)
    (hlow : baseTopY pg prev < d.rect.y0) (hhigh : d.rect.y0 < cap.rect.y0)
    (hmax : ∀ e ∈ pg.drawings, isDashedDrawing e = true → e.rect.y0 < cap.rect.y0 →
      e.rect.y0 ≤ d.rect.y0) :
    figTopY pg cap prev false = d.rect.y0 + 2 ∧ baseTopY pg prev < d.rect.y0 + 2 := by
  have hsep := getDashedSeparatorY_eq_max pg cap.rect.y0 d hmem hdash hhigh hmax
  constructor
  · simp only [figTopY, Bool.false_eq_true, if_false, hsep]
    rw [if_pos hlow]
  · linarith

theorem claim_C4_dashed_top_witness :
    figTopY pg4 cap4 none false = 102 ∧ baseTopY pg4 none < 102 := by
  have h := claim_C4_dashed_top pg4 cap4 none ⟨⟨10, 100, 190, 101⟩, some "[3 3] 0"⟩
    (by with_unfolding_all decide) (by with_unfolding_all decide)
    (by with_unfolding_all decide) (by with_unfolding_all decide)
    (by with_unfolding_all decide)
  refine ⟨h.1.trans (by norm_num), ?_⟩
  have h2 := h.2
  have he : ((100 : ℚ) + 2) = 102 := by norm_num
  rw [he] at h2
  exact h2

/-- C5 counterexample: on a concrete supplementary page with a content
block whose bottom (103) lies just below the caption top (100), within
the 5-unit tolerance, the code's resolved bottom is
max(103, 100) + 2 = 105, while the claim's formula
max(100 + 2, 103) gives 103. -/
theorem claim_C5_cex :
    (resolveClip pg5 cap5 none true).y1 = 105 ∧ specSiBottomY pg5 cap5 = 103 ∧
      (resolveClip pg5 cap5 none true).y1 ≠ specSiBottomY pg5 cap5 := by
  refine ⟨?_, ?_, ?_⟩ <;> with_unfolding_all decide

/-- C5 (amended): in supplementary mode the resolved region's bottom
boundary equals max(caption-top + 2, last-content-bottom + 2) — the code
computes max(last-content-bottom, caption-top) + 2, so the `+ 2` margin
applies to both operands, not only to the caption-top one. -/
theorem claim_C5_si_bottom (pg : Page) (cap : Caption) (prev : Option ℚ) :
    (resolveClip pg cap prev true).y1 =
      max (cap.rect.y0 + 2) (getLastContentBottom pg cap.rect.y0 true + 2) := by
  show clipBottomY pg cap true = _
  simp only [clipBottomY, if_true]
  rw [max_add_add_right, max_comm cap.rect.y0]

/-- C6 counterexample: a region whose width and height are exactly 20 —
not exceeding 20 — is still rendered and extracted: the size guard in the
code is `≥ 20`, not `> 20`. -/
theorem claim_C6_cex :
    (resolveClip pg6 cap6 none false).width = 20 ∧
      (resolveClip pg6 cap6 none false).height = 20 ∧
      extractFigure [pg6] cap6 none false = some (goodImg, 50) := by
  refine ⟨?_, ?_, ?_⟩ <;> with_unfolding_all decide

/-- C6 (amended): extraction from a candidate region proceeds only if the
region's width and height are each at least 20 units (not strictly more
than 20): a region failing that test yields no image, and every
successfully extracted image comes from a region — the above-region, or
in supplementary mode the fallback below-region — whose width and height
are both at least 20. -/
theorem claim_C6_min_size :
    (∀ (pg : Page) (r : Rect), r.height < 20 ∨ r.width < 20 → renderTrim pg r = none) ∧
    (∀ (doc : List Page) (cap : Caption) (prev : Option ℚ) (si : Bool) (img : Image)
        (y : ℚ),
      extractFigure doc cap prev si = some (img, y) →
      (renderTrim (doc.getD cap.page default)
          (resolveClip (doc.getD cap.page default) cap prev si) = some img ∧
        20 ≤ (resolveClip (doc.getD cap.page default) cap prev si).height ∧
        20 ≤ (resolveClip (doc.getD cap.page default) cap prev si).width) ∨
      (si = true ∧
        renderTrim (doc.getD cap.page default)
          (belowClipRect (doc.getD cap.page default) cap) = some img ∧
        20 ≤ (belowClipRect (doc.getD cap.page default) cap).height ∧
        20 ≤ (belowClipRect (doc.getD cap.page default) cap).width)) := by
  refine ⟨renderTrim_none_of_small, ?_⟩
  intro doc cap prev si img y h
  rcases (extractFigure_some_cases doc cap prev si img y h).2 with ha | ⟨hsi, _, hb⟩
  · obtain ⟨hh, hw⟩ := renderTrim_some_size _ _ _ ha
    exact Or.inl ⟨ha, hh, hw⟩
  · obtain ⟨hh, hw⟩ := renderTrim_some_size _ _ _ hb
    exact Or.inr ⟨hsi, hb, hh, hw⟩

theorem claim_C6_min_size_witness :
    renderTrim pg6 ⟨0, 0, 5, 5⟩ = none ∧
      ((renderTrim ([pg6].getD cap6.page default)
          (resolveClip ([pg6].getD cap6.page default) cap6 none false) = some goodImg ∧
        20 ≤ (resolveClip ([pg6].getD cap6.page default) cap6 none false).height ∧
        20 ≤ (resolveClip ([pg6].getD cap6.page default) cap6 none false).width) ∨
      (false = true ∧
        renderTrim ([pg6].getD cap6.page default)
          (belowClipRect ([pg6].getD cap6.page default) cap6) = some goodImg ∧
        20 ≤ (belowClipRect ([pg6].getD cap6.page default) cap6).height ∧
        20 ≤ (belowClipRect ([pg6].getD cap6.page default) cap6).width)) :=
  ⟨claim_C6_min_size.1 pg6 ⟨0, 0, 5, 5⟩ (Or.inl (by with_unfolding_all decide)),
    claim_C6_min_size.2 [pg6] cap6 none false goodImg 50 (by with_unfolding_all decide)⟩

/-- C7 counterexample: on a concrete supplementary page whose caption hugs
the page bottom, an image is rendered and extracted from a resolved
rectangle whose bottom (793) lies outside the page (page bottom 792): the
resolved Region is not clipped to the page's vertical bounds. -/
theorem claim_C7_cex :
    extractFigure [pg7] cap7 none true = some (goodImg, 792) ∧
      (resolveClip pg7 cap7 none true).y1 = 793 ∧ pg7.rect.y1 = 792 ∧
      ¬(resolveClip pg7 cap7 none true).y1 ≤ pg7.rect.y1 := by
  refine ⟨?_, ?_, ?_, ?_⟩ <;> with_unfolding_all decide

/-- C7 (amended): for every caption from which an image is extracted, the
source region's horizontal edges are inset 3 units inside the page's left
and right edges, and the region satisfies top < bottom and left < right;
the rectangle is however not clamped to the page's vertical bounds —
clipping to the page happens inside the renderer, not in the resolved
Region. -/
theorem claim_C7_region_shape (doc : List Page) (cap : Caption) (prev : Option ℚ)
    (si : Bool) (img : Image) (y : ℚ)
    (h : extractFigure doc cap prev si = some (img, y)) :
    ∃ r : Rect,
      (r = resolveClip (doc.getD cap.page default) cap prev si ∨
        r = belowClipRect (doc.getD cap.page default) cap) ∧
      renderTrim (doc.getD cap.page default) r = some img ∧
      r.x0 = (doc.getD cap.page default).rect.x0 + 3 ∧
      r.x1 = (doc.getD cap.page default).rect.x1 - 3 ∧
      r.y0 < r.y1 ∧ r.x0 < r.x1 := by
  rcases (extractFigure_some_cases doc cap prev si img y h).2 with ha | ⟨hsi, _, hb⟩
  · obtain ⟨hh, hw⟩ := renderTrim_some_size _ _ _ ha
    have hh' : (20 : ℚ) ≤ (resolveClip (doc.getD cap.page default) cap prev si).y1 -
        (resolveClip (doc.getD cap.page default) cap prev si).y0 := hh
    have hw' : (20 : ℚ) ≤ (resolveClip (doc.getD cap.page default) cap prev si).x1 -
        (resolveClip (doc.getD cap.page default) cap prev si).x0 := hw
    exact ⟨_, Or.inl rfl, ha, rfl, rfl, by linarith, by linarith⟩
  · obtain ⟨hh, hw⟩ := renderTrim_some_size _ _ _ hb
    have hh' : (20 : ℚ) ≤ (belowClipRect (doc.getD cap.page default) cap).y1 -
        (belowClipRect (doc.getD cap.page default) cap).y0 := hh
    have hw' : (20 : ℚ) ≤ (belowClipRect (doc.getD cap.page default) cap).x1 -
        (belowClipRect (doc.getD cap.page default) cap).x0 := hw
    exact ⟨_, Or.inr rfl, hb, rfl, rfl, by linarith, by linarith⟩

theorem claim_C7_region_shape_witness :
    ∃ r : Rect,
      (r = resolveClip ([pg7].getD cap7.page default) cap7 none true ∨
        r = belowClipRect ([pg7].getD cap7.page default) cap7) ∧
      renderTrim ([pg7].getD cap7.page default) r = some goodImg ∧
      r.x0 = ([pg7].getD cap7.page default).rect.x0 + 3 ∧
      r.x1 = ([pg7].getD cap7.page default).rect.x1 - 3 ∧
      r.y0 < r.y1 ∧ r.x0 < r.x1 :=
  claim_C7_region_shape [pg7] cap7 none true goodImg 792 (by with_unfolding_all decide)

/-- C8: on a main-mode page of height 800 whose only text block is
`"Figure 1."` at rectangle (50, 700, 500, 720) — no prior caption, no
header-keyword block, no drawings — the caption detector finds exactly
that caption, the resolved top boundary is 10, the bottom boundary is
697, and the Region height is 687, for every page width and renderer. -/
theorem claim_C8_scenario (w : ℚ) (rend : Rect → Image) :
    (resolveClip (pg8 w rend) cap8 none false).y0 = 10 ∧
      (resolveClip (pg8 w rend) cap8 none false).y1 = 697 ∧
      (resolveClip (pg8 w rend) cap8 none false).height = 687 ∧
      findAllCaptions [pg8 w rend] false = [cap8] := by
  refine ⟨?_, ?_, ?_, ?_⟩ <;> with_unfolding_all rfl

end ExtractFigures
